import Mathlib

/-!
Verification of pyout's style-element layer (pyout/elements.py): the style
schema registry, the `adopt` merge algorithm, the `default` lookup and the
`validate` procedure, embedded shallowly over a JSON-like value model.
-/

set_option autoImplicit false

namespace Pyout

/-- JSON-compatible Python values as used by style documents: `None`, booleans,
integers, strings, lists, and dicts (ordered association lists with string
keys, as Python dicts preserve insertion order). -/
inductive Value : Type where
  | null : Value
  | bool : Bool → Value
  | int : Int → Value
  | str : String → Value
  | list : List Value → Value
  | obj : List (String × Value) → Value

/-- A Python dict with string keys, in insertion order. -/
abbrev Dict : Type := List (String × Value)

/-- Python `d[k]` / `d.get(k)` on a dict: the value at the first matching key. -/
def dictGet : Dict → String → Option Value
  | [], _ => none
  | p :: rest, k => if p.1 = k then some p.2 else dictGet rest k

/-- Python `d.get(k, dflt)`. -/
def getD (d : Dict) (k : String) (dflt : Value) : Value :=
  (dictGet d k).getD dflt

/-- Python `k in d`. -/
def hasKey (d : Dict) (k : String) : Bool :=
  d.any (fun p => decide (p.1 = k))

/-- Python `dict(base, **upd)`: a copy of `base` with each key present in `upd`
updated to `upd`'s value, and the keys of `upd` absent from `base` appended in
order. -/
def dictUpdate (base upd : Dict) : Dict :=
  base.map (fun p => (p.1, getD upd p.1 p.2)) ++
    upd.filter (fun q => !(hasKey base q.1))

/-- Python exceptions that the modelled functions can raise. -/
inductive PyError : Type where
  | typeError : PyError
  | keyError : PyError
deriving DecidableEq

/-- Whether a value is a `collections.Mapping` (in this model, exactly the
`obj` values). -/
def Value.isObj : Value → Bool
  | .obj _ => true
  | _ => false

/-- One iteration of the loop body of `adopt` (pyout/elements.py lines
176-180): for an entry `key, value` of `style`, the value stored into
`combined[key]`.  `dict(value, **new_style.get(key, {}))` raises `TypeError`
when `new_style[key]` exists and is not a mapping. -/
def adoptValue (ns : Dict) (key : String) (value : Value) : Except PyError Value :=
  match value with
  | .obj entries =>
    match dictGet ns key with
    | some (.obj upd) => .ok (.obj (dictUpdate entries upd))
    | some _ => .error .typeError
    | none => .ok (.obj (dictUpdate entries []))
  | _ => .ok (getD ns key value)

/-- The loop of `adopt` over the entries of `style`, building `combined`;
the first raising entry aborts the loop. -/
def adoptList (ns : Dict) : Dict → Except PyError Dict
  | [] => .ok []
  | (k, v) :: rest =>
    match adoptValue ns k v with
    | .error e => .error e
    | .ok v2 =>
      match adoptList ns rest with
      | .error e => .error e
      | .ok rest2 => .ok ((k, v2) :: rest2)

/-- `adopt(style, new_style)` from pyout/elements.py lines 171-181. -/
def adopt (style : Dict) (new_style : Option Dict) : Except PyError Dict :=
  match new_style with
  | none => .ok style
  | some ns => adoptList ns style

/-- Keys with no duplicates, as holds for every real Python dict. -/
def nodupKeys : Dict → Bool
  | [] => true
  | p :: rest => !(hasKey rest p.1) && nodupKeys rest

/-- Well-formedness of an override layer as a Python dict: every mapping
value stored in it has duplicate-free keys. -/
def wfOverride (d : Dict) : Bool :=
  d.all (fun p => match p.2 with | .obj u => nodupKeys u | _ => true)

/-- C1: when the override layer is `None`, `adopt` returns the base style
unchanged: `adopt(S, None) == S` for every style document `S`. -/
theorem adopt_none_identity (S : Dict) : adopt S none = .ok S := rfl

lemma adoptList_cons_ok {ns : Dict} {k : String} {v : Value} {rest R : Dict} :
    adoptList ns ((k, v) :: rest) = .ok R ↔
      ∃ v2 rest2, adoptValue ns k v = .ok v2 ∧ adoptList ns rest = .ok rest2 ∧
        R = (k, v2) :: rest2 := by
  constructor
  · intro h
    unfold adoptList at h
    cases h1 : adoptValue ns k v with
    | error e => rw [h1] at h; simp at h
    | ok v2 =>
      rw [h1] at h
      cases h2 : adoptList ns rest with
      | error e => rw [h2] at h; simp at h
      | ok rest2 =>
        rw [h2] at h
        simp only [Except.ok.injEq] at h
        exact ⟨v2, rest2, rfl, rfl, h.symm⟩
  · rintro ⟨v2, rest2, h1, h2, rfl⟩
    unfold adoptList
    rw [h1, h2]

lemma dictGet_map_value (f : String → Value → Value) (k : String) :
    ∀ base : Dict,
      dictGet (base.map (fun p => (p.1, f p.1 p.2))) k = (dictGet base k).map (f k) := by
  intro base
  induction base with
  | nil => rfl
  | cons p rest ih =>
    by_cases hk : p.1 = k
    · subst hk; simp [dictGet]
    · simp [dictGet, hk, ih]

lemma dictGet_append (l1 l2 : Dict) (k : String) :
    dictGet (l1 ++ l2) k = (dictGet l1 k).or (dictGet l2 k) := by
  induction l1 with
  | nil => simp [dictGet]
  | cons p rest ih =>
    by_cases hk : p.1 = k
    · simp [dictGet, hk]
    · simp [dictGet, hk, ih]

lemma dictGet_filter (p : String × Value → Bool) (k : String) :
    ∀ l : Dict, (∀ q ∈ l, q.1 = k → p q = true) →
      dictGet (l.filter p) k = dictGet l k := by
  intro l
  induction l with
  | nil => intro _; rfl
  | cons q rest ih =>
    intro hall
    by_cases hk : q.1 = k
    · have hq : p q = true := hall q (List.mem_cons_self q rest) hk
      simp [List.filter, hq, dictGet, hk]
    · cases hq : p q with
      | true =>
        simp [List.filter, hq, dictGet, hk]
        exact ih (fun r hr => hall r (List.mem_cons_of_mem q hr))
      | false =>
        simp [List.filter, hq, dictGet, hk]
        rw [ih (fun r hr => hall r (List.mem_cons_of_mem q hr))]

lemma hasKey_false_iff (d : Dict) (k : String) :
    hasKey d k = false ↔ dictGet d k = none := by
  induction d with
  | nil => simp [hasKey, dictGet]
  | cons p rest ih =>
    by_cases hk : p.1 = k
    · simp [hasKey, dictGet, hk]
    · simp [hasKey, dictGet, hk, ← ih]

lemma mem_hasKey {d : Dict} {q : String × Value} (hq : q ∈ d) : hasKey d q.1 = true := by
  rw [hasKey, List.any_eq_true]
  exact ⟨q, hq, by simp⟩

lemma dictGet_mem {d : Dict} {k : String} {v : Value} (h : dictGet d k = some v) :
    (k, v) ∈ d := by
  induction d with
  | nil => simp [dictGet] at h
  | cons p rest ih =>
    by_cases hk : p.1 = k
    · simp [dictGet, hk] at h
      subst h
      rw [← hk]
      exact List.mem_cons_self p rest
    · simp [dictGet, hk] at h
      exact List.mem_cons_of_mem p (ih h)

lemma nodupKeys_dictGet {u : Dict} (hu : nodupKeys u = true) :
    ∀ {q : String × Value}, q ∈ u → dictGet u q.1 = some q.2 := by
  induction u with
  | nil => intro q hq; simp at hq
  | cons p rest ih =>
    simp only [nodupKeys, Bool.and_eq_true, Bool.not_eq_true'] at hu
    intro q hq
    rcases List.mem_cons.mp hq with hq | hq
    · subst hq; simp [dictGet]
    · by_cases hk : p.1 = q.1
      · exfalso
        have : hasKey rest p.1 = true := by rw [hk]; exact mem_hasKey hq
        rw [hu.1] at this
        exact Bool.false_ne_true this
      · simp [dictGet, hk]
        exact ih hu.2 hq

lemma getD_getD (u : Dict) (k : String) (x : Value) :
    getD u k (getD u k x) = getD u k x := by
  unfold getD
  cases h : dictGet u k <;> simp

lemma dictUpdate_nil_right (base : Dict) : dictUpdate base [] = base := by
  unfold dictUpdate
  simp [getD, dictGet]

lemma dictGet_dictUpdate_of_mem_upd {base upd : Dict} {j : String} {w : Value}
    (h : dictGet upd j = some w) : dictGet (dictUpdate base upd) j = some w := by
  unfold dictUpdate
  rw [dictGet_append, dictGet_map_value (fun k v => getD upd k v) j base]
  cases hb : dictGet base j with
  | some v =>
    simp [getD, h]
  | none =>
    simp only [Option.map_none', Option.or]
    rw [dictGet_filter _ _ upd]
    · exact h
    · intro q _ hq
      rw [hq]
      simp [Bool.not_eq_true', hasKey_false_iff]
      exact hb

/-- C2: for a key whose base value is a scalar (non-mapping), `adopt` takes
the override value verbatim when present and keeps the base value otherwise;
in particular `adopt({color: black, bold: false}, {color: red})` yields
`{color: red, bold: false}`. -/
theorem adopt_scalar_override :
    (∀ (S O R : Dict) (k : String) (v : Value),
      dictGet S k = some v → v.isObj = false → adopt S (some O) = .ok R →
        dictGet R k = some (getD O k v)) ∧
    adopt [("color", Value.str "black"), ("bold", Value.bool false)]
        (some [("color", Value.str "red")]) =
      .ok [("color", Value.str "red"), ("bold", Value.bool false)] := by
  constructor
  · intro S O R k v hS hv hR
    simp only [adopt] at hR
    induction S generalizing R with
    | nil => simp [dictGet] at hS
    | cons p rest ih =>
      obtain ⟨k0, v0⟩ := p
      rcases adoptList_cons_ok.mp hR with ⟨v2, rest2, h1, h2, rfl⟩
      by_cases hk : k0 = k
      · subst hk
        have hS2 : v0 = v := by simpa [dictGet] using hS
        subst hS2
        have h12 : v2 = getD O k0 v0 := by
          cases v0 <;> simp [Value.isObj] at hv <;>
            simp only [adoptValue, Except.ok.injEq] at h1 <;> exact h1.symm
        simp [dictGet, h12]
      · have hS2 : dictGet rest k = some v := by simpa [dictGet, hk] using hS
        have goal2 : dictGet rest2 k = some (getD O k v) := ih rest2 hS2 h2
        simpa [dictGet, hk] using goal2
  · rfl

/-- C3: `adopt(S, O)` has exactly the keys of `S`, in order — keys present
only in the override are not added; in particular
`adopt({a: {align: left}}, {b: {align: right}})` yields `{a: {align: left}}`. -/
theorem adopt_preserves_keys :
    (∀ (S O R : Dict), adopt S (some O) = .ok R →
      R.map Prod.fst = S.map Prod.fst) ∧
    adopt [("a", Value.obj [("align", Value.str "left")])]
        (some [("b", Value.obj [("align", Value.str "right")])]) =
      .ok [("a", Value.obj [("align", Value.str "left")])] := by
  constructor
  · intro S O R hR
    simp only [adopt] at hR
    induction S generalizing R with
    | nil =>
      simp only [adoptList, Except.ok.injEq] at hR
      subst hR; rfl
    | cons p rest ih =>
      obtain ⟨k0, v0⟩ := p
      rcases adoptList_cons_ok.mp hR with ⟨v2, rest2, _, h2, rfl⟩
      simp [ih rest2 h2]
  · rfl

lemma adoptValue_error {ns : Dict} {k : String} {v : Value} {e : PyError}
    (h : adoptValue ns k v = .error e) : e = .typeError := by
  cases v with
  | obj entries =>
    unfold adoptValue at h
    cases hg : dictGet ns k with
    | none => rw [hg] at h; simp at h
    | some w =>
      rw [hg] at h
      cases w <;> simp at h <;> exact h.symm
  | null => simp [adoptValue] at h
  | bool b => simp [adoptValue] at h
  | int n => simp [adoptValue] at h
  | str s => simp [adoptValue] at h
  | list l => simp [adoptValue] at h

lemma adoptValue_scalar {ns : Dict} {k : String} {v : Value} (hv : v.isObj = false) :
    adoptValue ns k v = .ok (getD ns k v) := by
  cases v <;> simp [Value.isObj] at hv <;> rfl

/-- C4: for a key whose base value is a mapping, `adopt` produces the base
mapping shallowly updated by the override's mapping (`dict(value,
**new_style[key])`): second-level keys present in the override take the
override's value wholesale, with no recursion below the second level — in
particular two Interval-valued color definitions merge by replacing the
triple list, not concatenating it. -/
theorem adopt_nested_shallow_merge :
    (∀ (S O R : Dict) (k : String) (base upd : Dict),
      dictGet S k = some (Value.obj base) → dictGet O k = some (Value.obj upd) →
        adopt S (some O) = .ok R →
          dictGet R k = some (Value.obj (dictUpdate base upd))) ∧
    (∀ (base upd : Dict) (j : String) (w : Value),
      dictGet upd j = some w → dictGet (dictUpdate base upd) j = some w) ∧
    adopt [("color", Value.obj [("interval",
          Value.list [Value.list [Value.int 0, Value.int 10, Value.str "red"]])])]
        (some [("color", Value.obj [("interval",
          Value.list [Value.list [Value.int 10, Value.null, Value.str "green"]])])]) =
      .ok [("color", Value.obj [("interval",
          Value.list [Value.list [Value.int 10, Value.null, Value.str "green"]])])] := by
  refine ⟨?_, fun base upd j w h => dictGet_dictUpdate_of_mem_upd h, rfl⟩
  intro S O R k base upd hS hO hR
  simp only [adopt] at hR
  induction S generalizing R with
  | nil => simp [dictGet] at hS
  | cons p rest ih =>
    obtain ⟨k0, v0⟩ := p
    rcases adoptList_cons_ok.mp hR with ⟨v2, rest2, h1, h2, rfl⟩
    by_cases hk : k0 = k
    · subst hk
      have hS2 : v0 = Value.obj base := by simpa [dictGet] using hS
      subst hS2
      have h12 : v2 = Value.obj (dictUpdate base upd) := by
        unfold adoptValue at h1
        rw [hO] at h1
        simpa using h1.symm
      simp [dictGet, h12]
    · have hS2 : dictGet rest k = some (Value.obj base) := by simpa [dictGet, hk] using hS
      have goal2 := ih rest2 hS2 h2
      simpa [dictGet, hk] using goal2

/-- C10: `adopt` raises `TypeError` as soon as some key maps to a mapping in
the base style while the override holds a non-mapping value for it, and
succeeds whenever every such override value is itself a mapping. -/
theorem adopt_typeerror_condition :
    (∀ (S O : Dict) (k : String) (es : Dict) (w : Value),
      (k, Value.obj es) ∈ S → dictGet O k = some w → w.isObj = false →
        adopt S (some O) = .error .typeError) ∧
    (∀ S O : Dict,
      (∀ (k : String) (es : Dict) (w : Value),
        (k, Value.obj es) ∈ S → dictGet O k = some w → w.isObj = true) →
          ∃ R, adopt S (some O) = .ok R) := by
  constructor
  · intro S O k es w hmem hw hobj
    simp only [adopt]
    induction S with
    | nil => simp at hmem
    | cons p rest ih =>
      obtain ⟨k0, v0⟩ := p
      rcases List.mem_cons.mp hmem with h | h
      · injection h with hk hv
        subst hk
        subst hv
        have hval : adoptValue O k (Value.obj es) = .error .typeError := by
          unfold adoptValue
          rw [hw]
          cases w <;> simp [Value.isObj] at hobj <;> rfl
        unfold adoptList
        rw [hval]
      · cases h1 : adoptValue O k0 v0 with
        | error e =>
          have he : e = .typeError := adoptValue_error h1
          subst he
          unfold adoptList
          rw [h1]
        | ok v2 =>
          unfold adoptList
          rw [h1, ih h]
  · intro S O
    show (∀ (k : String) (es : Dict) (w : Value),
        (k, Value.obj es) ∈ S → dictGet O k = some w → w.isObj = true) →
      ∃ R, adoptList O S = .ok R
    induction S with
    | nil => exact fun _ => ⟨[], rfl⟩
    | cons p rest ih =>
      intro hpre
      obtain ⟨k0, v0⟩ := p
      obtain ⟨R0, hR0⟩ := ih (fun k es w hm => hpre k es w (List.mem_cons_of_mem _ hm))
      have hok : ∃ v2, adoptValue O k0 v0 = .ok v2 := by
        cases v0
        case obj es =>
          cases hg : dictGet O k0 with
          | none => exact ⟨_, by unfold adoptValue; rw [hg]⟩
          | some w =>
            have hobj : w.isObj = true :=
              hpre k0 es w (List.mem_cons_self _ _) hg
            cases w <;> simp [Value.isObj] at hobj
            exact ⟨_, by unfold adoptValue; rw [hg]⟩
        all_goals exact ⟨_, rfl⟩
      obtain ⟨v2, hv2⟩ := hok
      exact ⟨(k0, v2) :: R0, adoptList_cons_ok.mpr ⟨v2, R0, hv2, hR0, rfl⟩⟩

lemma map_eq_self_of {α : Type} (l : List α) (f : α → α) (h : ∀ x ∈ l, f x = x) :
    l.map f = l := by
  induction l with
  | nil => rfl
  | cons a t ih =>
    rw [List.map_cons, h a (List.mem_cons_self a t),
      ih (fun x hx => h x (List.mem_cons_of_mem a hx))]

lemma map_eq_map_of {α β : Type} (l : List α) (f g : α → β) (h : ∀ x ∈ l, f x = g x) :
    l.map f = l.map g := by
  induction l with
  | nil => rfl
  | cons a t ih =>
    rw [List.map_cons, List.map_cons, h a (List.mem_cons_self a t),
      ih (fun x hx => h x (List.mem_cons_of_mem a hx))]

lemma filter_eq_nil_of {α : Type} (l : List α) (p : α → Bool) (h : ∀ x ∈ l, p x = false) :
    l.filter p = [] := by
  induction l with
  | nil => rfl
  | cons a t ih =>
    rw [List.filter_cons, h a (List.mem_cons_self a t)]
    simpa using ih (fun x hx => h x (List.mem_cons_of_mem a hx))

lemma hasKey_append (l1 l2 : Dict) (k : String) :
    hasKey (l1 ++ l2) k = (hasKey l1 k || hasKey l2 k) := by
  unfold hasKey
  exact List.any_append

lemma hasKey_map_value (l : Dict) (f2 : String → Value → Value) (k : String) :
    hasKey (l.map (fun p => (p.1, f2 p.1 p.2))) k = hasKey l k := by
  unfold hasKey
  rw [List.any_map]
  rfl

lemma dictUpdate_self {u : Dict} (hu : nodupKeys u = true) : dictUpdate u u = u := by
  have h1 : u.map (fun p => (p.1, getD u p.1 p.2)) = u :=
    map_eq_self_of u _ (fun q hq => by simp [getD, nodupKeys_dictGet hu hq])
  have h2 : u.filter (fun q => !(hasKey u q.1)) = [] :=
    filter_eq_nil_of u _ (fun q hq => by simp [mem_hasKey hq])
  rw [dictUpdate, h1, h2, List.append_nil]

lemma dictUpdate_idem {u : Dict} (v : Dict) (hu : nodupKeys u = true) :
    dictUpdate (dictUpdate v u) u = dictUpdate v u := by
  have hmap : (dictUpdate v u).map (fun p => (p.1, getD u p.1 p.2)) = dictUpdate v u := by
    unfold dictUpdate
    rw [List.map_append, List.map_map]
    congr 1
    · exact map_eq_map_of v _ _ (fun p _ => by simp [Function.comp, getD_getD])
    · exact map_eq_self_of _ _ (fun q hq => by
        simp [getD, nodupKeys_dictGet hu (List.mem_of_mem_filter hq)])
  have hfil : u.filter (fun q => !(hasKey (dictUpdate v u) q.1)) = [] := by
    apply filter_eq_nil_of
    intro q hq
    have hk : hasKey (dictUpdate v u) q.1 = true := by
      unfold dictUpdate
      rw [hasKey_append, hasKey_map_value]
      cases hv : hasKey v q.1 with
      | true => rfl
      | false =>
        have : q ∈ u.filter (fun r => !(hasKey v r.1)) :=
          List.mem_filter.mpr ⟨hq, by rw [hv]; rfl⟩
        simp [mem_hasKey this]
    simp [hk]
  conv_lhs => rw [dictUpdate]
  rw [hmap, hfil, List.append_nil]

lemma wf_dictGet_nodup {ns : Dict} (hwf : wfOverride ns = true) {k : String} {u : Dict}
    (h : dictGet ns k = some (Value.obj u)) : nodupKeys u = true :=
  List.all_eq_true.mp hwf _ (dictGet_mem h)

lemma adoptValue_idem {ns : Dict} (hwf : wfOverride ns = true) {k : String} {v v2 : Value}
    (h : adoptValue ns k v = .ok v2) : adoptValue ns k v2 = .ok v2 := by
  cases v
  case obj entries =>
    unfold adoptValue at h
    cases hg : dictGet ns k with
    | none =>
      rw [hg] at h
      simp only [Except.ok.injEq] at h
      subst h
      unfold adoptValue
      rw [hg]
      simp [dictUpdate_nil_right]
    | some w =>
      rw [hg] at h
      cases w
      case obj u =>
        simp only [Except.ok.injEq] at h
        subst h
        unfold adoptValue
        rw [hg]
        simp [dictUpdate_idem entries (wf_dictGet_nodup hwf hg)]
      all_goals simp at h
  all_goals (
    simp only [adoptValue, Except.ok.injEq] at h
    subst h
    cases hg : dictGet ns k with
    | none => simp [adoptValue, getD, hg]
    | some w =>
      simp only [getD, hg, Option.getD_some]
      cases w
      case obj u =>
        unfold adoptValue
        rw [hg]
        simp [dictUpdate_self (wf_dictGet_nodup hwf hg)]
      all_goals simp [adoptValue, getD, hg])

/-- C5: `adopt` is idempotent in its override argument: re-applying the same
well-formed override layer to an already merged document changes nothing,
`adopt(adopt(S, O), O) == adopt(S, O)`. -/
theorem adopt_idempotent (S O R : Dict) (hwf : wfOverride O = true)
    (h : adopt S (some O) = .ok R) : adopt R (some O) = .ok R := by
  simp only [adopt] at h ⊢
  induction S generalizing R with
  | nil =>
    simp only [adoptList, Except.ok.injEq] at h
    subst h
    rfl
  | cons p rest ih =>
    obtain ⟨k0, v0⟩ := p
    rcases adoptList_cons_ok.mp h with ⟨v2, rest2, h1, h2, rfl⟩
    exact adoptList_cons_ok.mpr
      ⟨v2, rest2, adoptValue_idem hwf h1, ih rest2 h2, rfl⟩

/-- The `definitions` sub-dict of the `schema` literal of pyout/elements.py
(lines 9-113), transcribed entry for entry in source order. -/
def schemaDefinitions : Dict :=
  [("align", .obj
      [("description", .str "Alignment of text"),
       ("type", .str "string"),
       ("enum", .list [.str "left", .str "right", .str "center"]),
       ("default", .str "left"),
       ("scope", .str "column")]),
   ("bold", .obj
      [("description", .str "Whether text is bold"),
       ("oneOf", .list
          [.obj [("type", .str "boolean")],
           .obj [("$ref", .str "#/definitions/lookup")],
           .obj [("$ref", .str "#/definitions/interval")]]),
       ("default", .bool false),
       ("scope", .str "field")]),
   ("color", .obj
      [("description", .str "Foreground color of text"),
       ("oneOf", .list
          [.obj [("type", .str "string"),
                 ("enum", .list [.str "black", .str "red", .str "green", .str "yellow",
                                 .str "blue", .str "magenta", .str "cyan", .str "white"])],
           .obj [("$ref", .str "#/definitions/lookup")],
           .obj [("$ref", .str "#/definitions/interval")]]),
       ("default", .str "black"),
       ("scope", .str "field")]),
   ("underline", .obj
      [("description", .str "Whether text is underlined"),
       ("oneOf", .list
          [.obj [("type", .str "boolean")],
           .obj [("$ref", .str "#/definitions/lookup")],
           .obj [("$ref", .str "#/definitions/interval")]]),
       ("default", .bool false),
       ("scope", .str "field")]),
   ("width", .obj
      [("description", .str "Width of field"),
       ("oneOf", .list
          [.obj [("type", .str "integer")],
           .obj [("type", .str "string"),
                 ("enum", .list [.str "auto"])],
           .obj [("type", .str "object"),
                 ("properties", .obj
                    [("max", .obj [("type", .list [.str "integer", .str "null"])]),
                     ("min", .obj [("type", .list [.str "integer", .str "null"])]),
                     ("width", .obj [("type", .str "integer")]),
                     ("marker", .obj [("type", .list [.str "string", .str "boolean"])])]),
                 ("additionalProperties", .bool false)]]),
       ("default", .str "auto"),
       ("scope", .str "column")]),
   ("aggregate", .obj
      [("description", .str "A function that produces a summary value.  This\n            function will be called with all of the column\x27s the (unprocessed)\n            field values and should return a single value to be displayed."),
       ("scope", .str "column")]),
   ("delayed", .obj
      [("description", .str "Don\x27t wait for this column\x27s value.\n            The accessor will be wrapped in a function and called\n            asynchronously.  This can be set to a string to mark columns as\n            part of a \"group\".  All columns within a group will be accessed\n            within the same callable.  True means to access the column\x27s value\n            in its own callable (i.e. independently of other columns)."),
       ("type", .list [.str "boolean", .str "string"]),
       ("scope", .str "field")]),
   ("missing", .obj
      [("description", .str "Text to display for missing values"),
       ("type", .str "string"),
       ("default", .str ""),
       ("scope", .str "column")]),
   ("transform", .obj
      [("description", .str "An arbitrary function.\n            This function will be called with the (unprocessed) field value as\n            the single argument and should return a transformed value.  Note:\n            This function should not have side-effects because it may be called\n            multiple times."),
       ("scope", .str "field")]),
   ("styles", .obj
      [("type", .str "object"),
       ("properties", .obj
          [("aggregate", .obj [("$ref", .str "#/definitions/aggregate")]),
           ("align", .obj [("$ref", .str "#/definitions/align")]),
           ("bold", .obj [("$ref", .str "#/definitions/bold")]),
           ("color", .obj [("$ref", .str "#/definitions/color")]),
           ("delayed", .obj [("$ref", .str "#/definitions/delayed")]),
           ("missing", .obj [("$ref", .str "#/definitions/missing")]),
           ("transform", .obj [("$ref", .str "#/definitions/transform")]),
           ("underline", .obj [("$ref", .str "#/definitions/underline")]),
           ("width", .obj [("$ref", .str "#/definitions/width")])]),
       ("additionalProperties", .bool false)]),
   ("interval", .obj
      [("description", .str "Map a value within an interval to a style"),
       ("type", .str "object"),
       ("properties", .obj
          [("interval", .obj
             [("type", .str "array"),
              ("items", .list
                 [.obj [("type", .str "array"),
                        ("items", .list
                           [.obj [("type", .list [.str "number", .str "null"])],
                            .obj [("type", .list [.str "number", .str "null"])],
                            .obj [("type", .list [.str "string", .str "boolean"])]]),
                        ("additionalItems", .bool false)]])])]),
       ("additionalProperties", .bool false)]),
   ("lookup", .obj
      [("description", .str "Map a value to a style"),
       ("type", .str "object"),
       ("properties", .obj [("lookup", .obj [("type", .str "object")])]),
       ("additionalProperties", .bool false)])]

/-- The `properties` sub-dict of the `schema` literal of pyout/elements.py
(lines 115-154): the five table-level properties, in source order. -/
def schemaProperties : Dict :=
  [("aggregate_", .obj
      [("description", .str "Shared attributes for the summary rows"),
       ("oneOf", .list
          [.obj [("type", .str "object"),
                 ("properties", .obj
                    [("color", .obj [("$ref", .str "#/definitions/color")]),
                     ("bold", .obj [("$ref", .str "#/definitions/bold")]),
                     ("underline", .obj [("$ref", .str "#/definitions/underline")])])],
           .obj [("type", .str "null")]]),
       ("default", .obj []),
       ("scope", .str "table")]),
   ("default_", .obj
      [("description", .str "Default style of columns"),
       ("oneOf", .list
          [.obj [("$ref", .str "#/definitions/styles")],
           .obj [("type", .str "null")]]),
       ("default", .obj [("align", .str "left"), ("width", .str "auto")]),
       ("scope", .str "table")]),
   ("header_", .obj
      [("description", .str "Attributes for the header row"),
       ("oneOf", .list
          [.obj [("type", .str "object"),
                 ("properties", .obj
                    [("color", .obj [("$ref", .str "#/definitions/color")]),
                     ("bold", .obj [("$ref", .str "#/definitions/bold")]),
                     ("underline", .obj [("$ref", .str "#/definitions/underline")])])],
           .obj [("type", .str "null")]]),
       ("default", .null),
       ("scope", .str "table")]),
   ("separator_", .obj
      [("description", .str "Separator used between fields"),
       ("type", .str "string"),
       ("default", .str " "),
       ("scope", .str "table")]),
   ("width_", .obj
      [("description", .str "Total width of table.\n            This is typically not set directly by the user."),
       ("default", .int 90),
       ("type", .str "integer"),
       ("scope", .str "table")])]

/-- The `schema` dict literal of pyout/elements.py (lines 8-157). -/
def schema : Value :=
  .obj [("definitions", .obj schemaDefinitions),
        ("type", .str "object"),
        ("properties", .obj schemaProperties),
        ("additionalProperties", .obj [("$ref", .str "#/definitions/styles")])]

/-- Python subscripting `v[k]` on a value: `KeyError` when the key is absent
from a dict, `TypeError` when the value is not a dict. -/
def objGet (v : Value) (k : String) : Except PyError Value :=
  match v with
  | .obj es =>
    match dictGet es k with
    | some w => .ok w
    | none => .error .keyError
  | _ => .error .typeError

/-- `default(prop)` from pyout/elements.py lines 160-168:
`schema["properties"][prop]["default"]`. -/
def default (prop : String) : Except PyError Value := do
  let props ← objGet schema "properties"
  let sub ← objGet props prop
  objGet sub "default"

/-- C6: the table-level defaults are the literal values declared in the
schema: `width_` is 90, `separator_` a single space, `default_` the mapping
`{align: left, width: auto}`, `header_` is `None` and `aggregate_` the empty
mapping. -/
theorem default_table_values :
    Pyout.default "width_" = .ok (Value.int 90) ∧
    Pyout.default "separator_" = .ok (Value.str " ") ∧
    Pyout.default "default_" =
      .ok (Value.obj [("align", Value.str "left"), ("width", Value.str "auto")]) ∧
    Pyout.default "header_" = .ok Value.null ∧
    Pyout.default "aggregate_" = .ok (Value.obj []) :=
  ⟨rfl, rfl, rfl, rfl, rfl⟩

/-- C7: `default` fails with a key lookup error on every property name other
than the five table-level keys; in particular it never falls back to a
column-style element default such as the one declared for `align`. -/
theorem default_unknown_property (prop : String)
    (h : prop ∉ ["aggregate_", "default_", "header_", "separator_", "width_"]) :
    Pyout.default prop = .error .keyError := by
  simp only [List.mem_cons, List.not_mem_nil, or_false, not_or] at h
  obtain ⟨h1, h2, h3, h4, h5⟩ := h
  have hstep : Pyout.default prop =
      (objGet (Value.obj schemaProperties) prop).bind (fun sub => objGet sub "default") := rfl
  have hnone : objGet (Value.obj schemaProperties) prop = .error .keyError := by
    unfold objGet schemaProperties
    simp [dictGet, Ne.symm h1, Ne.symm h2, Ne.symm h3, Ne.symm h4, Ne.symm h5]
  rw [hstep, hnone]
  rfl

/-- The exception `StyleValidationError` of pyout/elements.py lines 190-197:
its message embeds the original diagnostic, and `cause` models `__cause__`,
the chained causal exception. -/
structure StyleValidationError : Type where
  msg : String
  cause : Option String
deriving DecidableEq

/-- The message built by `StyleValidationError.__init__`: the format template
at pyout/elements.py lines 194-196 with the original exception text filled in. -/
def styleValidationErrorMsg (original_exception : String) : String :=
  "Invalid style\n\n" ++ original_exception ++
    "\n\n\nSee pyout.schema for style definition."

/-- `validate(style)` from pyout/elements.py lines 200-224.  The jsonschema
library is an external, optional capability: it is modelled as an optional
conformance checker returning `none` when the document conforms to the
schema and `some diagnostic` otherwise.  A `none` capability is the
`ImportError` path (lines 212-215); with a present capability, a
non-conforming document raises `StyleValidationError` with
`__cause__ = None` (lines 217-224). -/
def validate (jsonschemaCheck : Option (Value → Option String)) (style : Value) :
    Except StyleValidationError Unit :=
  match jsonschemaCheck with
  | none => .ok ()
  | some check =>
    match check style with
    | none => .ok ()
    | some exc => .error ⟨styleValidationErrorMsg exc, none⟩

/-- Modelled from the spec: one Column Style is checked against the nine
recognized style elements (spec section 3, Invariants). -/
def specOneColumnCheck (v : Value) : Option String :=
  match v with
  | .obj es =>
    match es.find? (fun p =>
        !(["aggregate", "align", "bold", "color", "delayed", "missing",
           "transform", "underline", "width"].contains p.1)) with
    | some p => some ("Additional properties are not allowed (" ++ p.1 ++ " was unexpected)")
    | none => none
  | _ => some "column style is not an object"

/-- Modelled from the spec: walk the top-level entries; reserved table keys
are accepted, every other key is a column name whose value must be a valid
Column Style (spec section 3, Data Model). -/
def specEntriesCheck : Dict → Option String
  | [] => none
  | p :: rest =>
    if ["aggregate_", "default_", "header_", "separator_", "width_"].contains p.1 then
      specEntriesCheck rest
    else
      match specOneColumnCheck p.2 with
      | some e => some e
      | none => specEntriesCheck rest

/-- Modelled from the spec: the external jsonschema capability itself is
absent from src (pyout/elements.py only imports it), so this instantiates
the checker for the spec fragment the claims exercise — the invariant that
every key in a Column Style must be one of the nine recognized elements and
that a column value must be a mapping; unrecognized keys and non-mapping
column values yield a shape-mismatch diagnostic. -/
def specColumnStyleCheck (doc : Value) : Option String :=
  match doc with
  | .obj entries => specEntriesCheck entries
  | _ => some "style document is not an object"

/-- C8: when the schema-checking capability is unavailable, `validate`
returns without raising on every document, structurally invalid documents
included — validation degrades to a no-op. -/
theorem validate_no_capability (style : Value) : validate none style = .ok () := rfl

/-- C9: with the capability present, `validate` raises exactly when the
checker reports that the document does not conform; the raised
`StyleValidationError` embeds the original diagnostic text in its message
and carries no chained causal exception, and a Column Style containing the
unrecognized key `foo` fails validation this way. -/
theorem validate_with_capability :
    (∀ (check : Value → Option String) (style : Value),
      validate (some check) style = .ok () ↔ check style = none) ∧
    (∀ (check : Value → Option String) (style : Value) (diag : String),
      check style = some diag →
        validate (some check) style =
          .error ⟨"Invalid style\n\n" ++ diag ++
            "\n\n\nSee pyout.schema for style definition.", none⟩) ∧
    (∃ diag : String,
      specColumnStyleCheck (Value.obj [("col", Value.obj [("foo", Value.int 1)])]) =
        some diag ∧
      validate (some specColumnStyleCheck)
          (Value.obj [("col", Value.obj [("foo", Value.int 1)])]) =
        .error ⟨styleValidationErrorMsg diag, none⟩) := by
  refine ⟨?_, ?_, "Additional properties are not allowed (foo was unexpected)", rfl, rfl⟩
  · intro check style
    constructor
    · intro hv
      cases h : check style with
      | none => rfl
      | some d =>
        simp only [validate, h] at hv
        simp at hv
    · intro h
      simp only [validate, h]
  · intro check style diag h
    simp only [validate, h]
    rfl

/-- Witness for the scalar-override theorem at the base `{bold: false}` with
override `{bold: true}`. -/
theorem adopt_scalar_override_witness :
    dictGet [("bold", Value.bool true)] "bold" =
      some (getD [("bold", Value.bool true)] "bold" (Value.bool false)) :=
  adopt_scalar_override.1 [("bold", Value.bool false)] [("bold", Value.bool true)]
    [("bold", Value.bool true)] "bold" (Value.bool false) rfl rfl rfl

/-- Witness for key preservation: merging `{a: 1}` with `{a: 2, b: 3}` keeps
exactly the key `a`. -/
theorem adopt_preserves_keys_witness :
    List.map Prod.fst [("a", Value.int 2)] = List.map Prod.fst [("a", Value.int 1)] :=
  adopt_preserves_keys.1 [("a", Value.int 1)] [("a", Value.int 2), ("b", Value.int 3)]
    [("a", Value.int 2)] rfl

/-- Witness for the nested shallow merge at `{c: {x: 1}}` overridden by
`{c: {x: 2, y: 3}}`. -/
theorem adopt_nested_shallow_merge_witness :
    dictGet [("c", Value.obj [("x", Value.int 2), ("y", Value.int 3)])] "c" =
      some (Value.obj (dictUpdate [("x", Value.int 1)]
        [("x", Value.int 2), ("y", Value.int 3)])) :=
  adopt_nested_shallow_merge.1 [("c", Value.obj [("x", Value.int 1)])]
    [("c", Value.obj [("x", Value.int 2), ("y", Value.int 3)])]
    [("c", Value.obj [("x", Value.int 2), ("y", Value.int 3)])] "c"
    [("x", Value.int 1)] [("x", Value.int 2), ("y", Value.int 3)] rfl rfl rfl

/-- Witness for idempotence: re-applying the override `{a: {x: 1}}` to the
merge of `{a: {}}` with it changes nothing. -/
theorem adopt_idempotent_witness :
    adopt [("a", Value.obj [("x", Value.int 1)])]
        (some [("a", Value.obj [("x", Value.int 1)])]) =
      .ok [("a", Value.obj [("x", Value.int 1)])] :=
  adopt_idempotent [("a", Value.obj [])] [("a", Value.obj [("x", Value.int 1)])]
    [("a", Value.obj [("x", Value.int 1)])] rfl rfl

/-- Witness that `default` does not fall back to the column-style element
defaults: `align` has a declared default inside `definitions`, yet
`default("align")` fails. -/
theorem default_unknown_property_witness :
    Pyout.default "align" = .error .keyError :=
  default_unknown_property "align" (by decide)

/-- Witness for the validation error contract at a checker reporting the
diagnostic `boom` on the empty document. -/
theorem validate_with_capability_witness :
    validate (some (fun _ => some "boom")) (Value.obj []) =
      .error ⟨"Invalid style\n\n" ++ "boom" ++
        "\n\n\nSee pyout.schema for style definition.", none⟩ :=
  validate_with_capability.2.1 (fun _ => some "boom") (Value.obj []) "boom" rfl

/-- Witness for the `TypeError` raised when a mapping-valued key `m` is
overridden by the integer 7. -/
theorem adopt_typeerror_condition_witness :
    adopt [("m", Value.obj [])] (some [("m", Value.int 7)]) = .error .typeError :=
  adopt_typeerror_condition.1 [("m", Value.obj [])] [("m", Value.int 7)] "m" []
    (Value.int 7) (by simp) rfl rfl

end Pyout
